import Mathlib

/-!
Verification of the USBburner privileged disk-writer helper
(`src/windows/diskwriter_helper.cpp`) against its natural-language
specification.

The embedding is shallow: machine bytes are `Nat` values, device and file
contents are lists (or index functions) of bytes, and the Win32 calls that
can fail (`WriteFile`) are driven by explicit oracles `Nat → Bool` giving the
outcome of the n-th attempted call.  SHA-256 digests are modelled by the byte
stream fed to the incremental hash (`QCryptographicHash::addData` calls, in
order); two digests are equal exactly when the accumulated streams are equal,
which idealises SHA-256 as collision-free.
-/

namespace USBburner

/-- Byte values (0..255 in the program; the model does not need the bound). -/
abbrev Byte := Nat

/-- `MBR_SIZE` constant from `writeImageToDevice` (line 1285). -/
def MBR_SIZE : Nat := 512

/-- `BUFFER_SIZE` constant from `writeImageToDevice` (line 1274): 10 MiB. -/
def BUFFER_SIZE : Nat := 10 * 1024 * 1024

/-- `VERIFY_BLOCK_SIZE` constant from `verifyImage` (line 1711): 10 MiB. -/
def VERIFY_BLOCK_SIZE : Nat := 10 * 1024 * 1024

/-- Round `n` up to the next multiple of `sector`, as the C++ code computes
`((n + bytesPerSector - 1) / bytesPerSector) * bytesPerSector`. -/
def roundUpTo (sector n : Nat) : Nat := ((n + sector - 1) / sector) * sector

/-- One `WriteFile` call issued against the device handle: target byte offset
and the bytes submitted. -/
structure WriteEvent where
  offset : Nat
  data : List Byte
deriving Repr, DecidableEq

/-- Mutable state of the streaming write loop in `writeImageToDevice`
(lines 1321-1399): the trace of issued device writes, the bytes fed to the
rolling SHA-256, `totalBytesWritten` (unpadded), the implicit handle position
used when no explicit seek is issued (drive-letter targets), the index of the
next body `WriteFile` attempt in the oracle, and the `success` flag. -/
structure LoopState where
  trace : List WriteEvent
  hashInput : List Byte
  tbw : Nat
  devPos : Nat
  attempt : Nat
  success : Bool
deriving Repr, DecidableEq

/-- The read/write loop of `writeImageToDevice` (lines 1321-1399).
Each iteration reads up to `BUFFER_SIZE` bytes from the source at position
`pos`, feeds the chunk to the hash using its pre-pad length, rounds the write
length up to a multiple of `sector` zero-filling the tail, seeks to
`tbw + MBR_SIZE` (physical target with the MBR stashed) or `tbw` (physical,
sequential fallback), and calls `WriteFile`, retrying once on failure; a
second failure clears `success` and breaks.

The first `Nat` argument of the recursion is fuel, kept structural so the
kernel can evaluate the function; every iteration consumes at least one
source byte, so any fuel of at least `src.length - pos` (callers pass
`src.length`) yields exactly the loop's semantics. -/
def bodyLoop (wOk : Nat → Bool) (phys mbrSaved : Bool) (sector : Nat)
    (src : List Byte) : Nat → Nat → LoopState → LoopState
  | 0, _, st => st
  | fuel + 1, pos, st =>
    if pos < src.length ∧ st.success = true then
      let bytesRead := min BUFFER_SIZE (src.length - pos)
      let chunk := (src.drop pos).take bytesRead
      let btw := if bytesRead % sector = 0 then bytesRead else roundUpTo sector bytesRead
      let data := chunk ++ List.replicate (btw - bytesRead) 0
      let off := if phys then (if mbrSaved then st.tbw + MBR_SIZE else st.tbw) else st.devPos
      if wOk st.attempt then
        bodyLoop wOk phys mbrSaved sector src fuel (pos + bytesRead)
          { trace := st.trace ++ [⟨off, data⟩]
            hashInput := st.hashInput ++ chunk
            tbw := st.tbw + bytesRead
            devPos := st.devPos + btw
            attempt := st.attempt + 1
            success := true }
      else if wOk (st.attempt + 1) then
        bodyLoop wOk phys mbrSaved sector src fuel (pos + bytesRead)
          { trace := st.trace ++ [⟨off, data⟩, ⟨off, data⟩]
            hashInput := st.hashInput ++ chunk
            tbw := st.tbw + bytesRead
            devPos := st.devPos + btw
            attempt := st.attempt + 2
            success := true }
      else
        { trace := st.trace ++ [⟨off, data⟩, ⟨off, data⟩]
          hashInput := st.hashInput ++ chunk
          tbw := st.tbw
          devPos := st.devPos
          attempt := st.attempt + 2
          success := false }
    else st

/-- The MBR-last phase of `writeImageToDevice` (lines 1401-1435): seek to
offset 0, sector-align the 512-byte MBR with a zero tail, and attempt the
write up to three times (`wOkMbr n` is the outcome of attempt `n`).  Returns
the `WriteFile` calls issued and whether one of them succeeded. -/
def mbrPhase (wOkMbr : Nat → Bool) (sector : Nat) (src : List Byte) :
    List WriteEvent × Bool :=
  let mbrBtw := if MBR_SIZE % sector = 0 then MBR_SIZE else roundUpTo sector MBR_SIZE
  let ev : WriteEvent := ⟨0, src.take MBR_SIZE ++ List.replicate (mbrBtw - MBR_SIZE) 0⟩
  (if wOkMbr 0 then [ev] else if wOkMbr 1 then [ev, ev] else [ev, ev, ev],
   wOkMbr 0 || wOkMbr 1 || wOkMbr 2)

/-- The padding discipline of one submitted write: the length is the
pre-pad length rounded up to a multiple of the sector size (left unchanged
when already a multiple), the tail is zero-filled, and the submitted length
is divisible by the sector size. -/
def PaddedEvent (sector : Nat) (ev : WriteEvent) : Prop :=
  sector ∣ ev.data.length ∧
  ∃ c : List Byte, ev.data = c ++ List.replicate (ev.data.length - c.length) 0 ∧
    ev.data.length =
      (if c.length % sector = 0 then c.length else roundUpTo sector c.length)

/-- Result of `writeImageToDevice`: the `success` return value, the trace of
device writes, the SHA-256 input stream, and the final `m_bytesWritten` /
`m_bytesTotal` fields. -/
structure WriteOutcome where
  success : Bool
  trace : List WriteEvent
  hashInput : List Byte
  bytesWritten : Nat
  bytesTotal : Nat
  mbrSaved : Bool
deriving Repr, DecidableEq

/-- `DiskWriterHelper::writeImageToDevice` (lines 955-1571), restricted to
the I/O behaviour the claims concern (device open and the diskpart
invocations always succeed; source seeks succeed, as they do for in-range
seeks of a regular file).  `wOkBody n` is the outcome of the n-th body
`WriteFile` attempt, `wOkMbr n` the outcome of the n-th MBR `WriteFile`
attempt (at most three are made).

The MBR stash (lines 1299-1318): the first read returns
`min MBR_SIZE src.length` bytes; only a full 512-byte read feeds the hash,
sets `mbrSaved` and seeks to 512 — a short read leaves `mbrSaved` false and
leaves the source position where the read left it.  After the loop, if
`success` and `mbrSaved`, the MBR block is sector-aligned with a zero tail
and written at offset 0 with up to three attempts (lines 1401-1440), and
`m_bytesWritten` is set to `m_bytesTotal`. -/
def writeImageToDevice (wOkBody wOkMbr : Nat → Bool) (phys : Bool)
    (sector : Nat) (src : List Byte) : WriteOutcome :=
  let len := src.length
  let mbrBytesRead := min MBR_SIZE len
  if mbrBytesRead = MBR_SIZE then
    -- full MBR read: hash it, mark it saved, seek source to 512
    let hash0 := src.take MBR_SIZE
    let st := bodyLoop wOkBody phys true sector src src.length MBR_SIZE
      ⟨[], hash0, 0, 0, 0, true⟩
    if st.success then
      { success := (mbrPhase wOkMbr sector src).2
        trace := st.trace ++ (mbrPhase wOkMbr sector src).1
        hashInput := st.hashInput
        bytesWritten := len  -- m_bytesWritten = m_bytesTotal (line 1438)
        bytesTotal := len
        mbrSaved := true }
    else
      { success := false
        trace := st.trace
        hashInput := st.hashInput
        bytesWritten := st.tbw
        bytesTotal := len
        mbrSaved := true }
  else
    -- short read: MBR-last disabled; the source position is NOT rewound,
    -- so the loop resumes at `mbrBytesRead` (= len, since the read was short
    -- only because the file ended)
    let st := bodyLoop wOkBody phys false sector src src.length mbrBytesRead
      ⟨[], [], 0, 0, 0, true⟩
    { success := st.success
      trace := st.trace
      hashInput := st.hashInput
      bytesWritten := st.tbw
      bytesTotal := len
      mbrSaved := false }

/-! ## Verifier (`DiskWriterHelper::verifyImage`, lines 1701-1793) -/

/-- A `QFile::read` of `n` bytes at position `off` from a device of length
`devLen` whose byte at index `i` is `dev i`: returns
`min n (devLen - off)` bytes (zero at or past end of file). -/
def devRead (dev : Nat → Byte) (devLen off n : Nat) : List Byte :=
  (List.range (min n (devLen - off))).map (fun i => dev (off + i))

/-- The verification read loop (lines 1747-1760): starting with the device
position at `pos` and `verified` bytes already counted, repeatedly read
`min VERIFY_BLOCK_SIZE (total - verified)` bytes, feed them to the hash and
advance, stopping when `verified` reaches `total` or a read returns no
bytes.  Returns the bytes fed to the hash.

The first `Nat` argument is structural fuel; every iteration advances
`verified` by at least one byte, so any fuel of at least `total - verified`
(callers pass `total`) yields exactly the loop's semantics. -/
def verifyLoop (dev : Nat → Byte) (devLen total : Nat) :
    Nat → Nat → Nat → List Byte
  | 0, _, _ => []
  | fuel + 1, pos, verified =>
    if verified < total then
      if min (min VERIFY_BLOCK_SIZE (total - verified)) (devLen - pos) = 0 then []
      else
        devRead dev devLen pos (min VERIFY_BLOCK_SIZE (total - verified)) ++
          verifyLoop dev devLen total fuel
            (pos + min (min VERIFY_BLOCK_SIZE (total - verified)) (devLen - pos))
            (verified + min (min VERIFY_BLOCK_SIZE (total - verified)) (devLen - pos))
    else []

/-- The byte stream fed to the verification hash by `verifyImage`
(lines 1727-1770): seek to `VERIFY_BLOCK_SIZE`, run the read loop with
target `total`, then seek to 0 and append one read of
`min VERIFY_BLOCK_SIZE total` bytes. -/
def verifyHashStream (dev : Nat → Byte) (devLen total : Nat) : List Byte :=
  verifyLoop dev devLen total total VERIFY_BLOCK_SIZE 0 ++
    devRead dev devLen 0 (min VERIFY_BLOCK_SIZE total)

/-- `DiskWriterHelper::verifyImage` (lines 1701-1793).  `sourceHash` is the
stored `m_sourceHash` stream (empty list when no prior WRITE stored one),
`bytesTotal` the stored `m_bytesTotal` (0 standing for "unknown", in which
case the device size is used), and `expectedHash` the command argument —
which the body never reads.  Returns whether the re-read digest equals the
stored one. -/
def verifyImage (dev : Nat → Byte) (devLen bytesTotal : Nat)
    (sourceHash _expectedHash : List Byte) : Bool :=
  if sourceHash.isEmpty then false
  else
    let total := if bytesTotal = 0 then devLen else bytesTotal
    verifyHashStream dev devLen total == sourceHash

/-- Modelled from the spec (claim C2's words, for comparison only): the
schedule the spec describes — "read from offset 512 to `bytes_total`, then
read offset 0..512 and append". -/
def specVerifySchedule (dev : Nat → Byte) (devLen total : Nat) : List Byte :=
  devRead dev devLen 512 (total - 512) ++ devRead dev devLen 0 512

/-! ## Framed IPC serialization (`QDataStream`, version `QDataStream::Qt_6_0`)

`QDataStream << QString` writes a big-endian `quint32` holding the byte
length of the UTF-16 representation, followed by the UTF-16 code units in
big-endian byte order. -/

/-- UTF-16 code units of one character (surrogate pair above U+FFFF). -/
def utf16Units (c : Char) : List Nat :=
  let n := c.toNat
  if n < 0x10000 then [n]
  else [0xD800 + (n - 0x10000) / 0x400, 0xDC00 + (n - 0x10000) % 0x400]

/-- UTF-16 code units of a string. -/
def utf16OfString (s : String) : List Nat :=
  s.data.foldr (fun c acc => utf16Units c ++ acc) []

/-- Big-endian 32-bit encoding of `n`. -/
def be32 (n : Nat) : List Byte :=
  [n / 2 ^ 24 % 256, n / 2 ^ 16 % 256, n / 2 ^ 8 % 256, n % 256]

/-- Big-endian 16-bit encoding of a UTF-16 code unit. -/
def be16 (u : Nat) : List Byte :=
  [u / 256 % 256, u % 256]

/-- The byte stream `QDataStream` (protocol version `Qt_6_0`) produces for a
non-null `QString`: 32-bit big-endian byte count, then UTF-16BE payload. -/
def serializeQString (s : String) : List Byte :=
  let units := utf16OfString s
  be32 (2 * units.length) ++ units.foldr (fun u acc => be16 u ++ acc) []

/-- The handshake frame `onNewConnection` writes (lines 226-235):
`out << QString("HELLO")`. -/
def helloFrame : List Byte := serializeQString "HELLO"

/-! ## Helper-side connection state machine -/

/-- `DiskWriterHelper::ConnectionState` (header lines 33-41). -/
inductive ConnState where
  | Idle
  | Connected
  | HandshakeSending
  | HandshakeReceiving
  | Ready
  | Processing
  | Error
deriving Repr, DecidableEq

/-- The helper fields the state-machine claims concern: `m_connectionState`
and `m_currentCommand` (empty string = cleared). -/
structure Helper where
  state : ConnState
  currentCommand : String
deriving Repr, DecidableEq

/-- `DiskWriterHelper::changeState` (lines 59-115): no-op when the state is
unchanged; entering `Idle`, `Connected` or `Ready` clears `m_currentCommand`;
entering `HandshakeSending`, `HandshakeReceiving`, `Processing` or `Error`
leaves it untouched. -/
def changeState (h : Helper) (ns : ConnState) : Helper :=
  if h.state = ns then h
  else
    { state := ns
      currentCommand :=
        match ns with
        | .Idle | .Connected | .Ready => ""
        | _ => h.currentCommand }

/-- One observable transition of the helper, each constructor matching a
`changeState` (or `resetState`, or command-store) call site in the source:
`onNewConnection` (lines 217, 223, 248, 259), the 5-second handshake
timeout (line 254), the handshake-response handling (lines 297-305), the
command dispatch in `onClientDataReceived` (lines 340-362), the send-failure
paths of `sendCompletionStatus` (lines 417-432), and `resetState`
(lines 156-181, reachable from any state via client disconnect). -/
inductive Step : Helper → Helper → Prop where
  | connect (h : Helper) : Step h (changeState h .Connected)
  | startHandshake (h : Helper) (hs : h.state = .Connected) :
      Step h (changeState h .HandshakeSending)
  | helloSent (h : Helper) (hs : h.state = .HandshakeSending) :
      Step h (changeState h .HandshakeReceiving)
  | helloSendFailed (h : Helper) (hs : h.state = .HandshakeSending) :
      Step h (changeState h .Error)
  | handshakeTimeout (h : Helper) (hs : h.state = .HandshakeReceiving) :
      Step h (changeState h .Error)
  | recvReady (h : Helper) (hs : h.state = .HandshakeReceiving) :
      Step h (changeState h .Ready)
  | recvBadHandshake (h : Helper) (hs : h.state = .HandshakeReceiving) :
      Step h (changeState h .Error)
  | beginCommand (h : Helper) (c : String) (hs : h.state = .Ready) :
      Step h ⟨.Processing, c⟩
  | finishCommandOk (h : Helper) (hs : h.state = .Processing) :
      Step h (changeState h .Ready)
  | commandException (h : Helper) (hs : h.state = .Processing) :
      Step h (changeState h .Error)
  | sendStatusFailed (h : Helper) (hs : h.state = .Processing) :
      Step h (changeState h .Error)
  | reset (h : Helper) : Step h ⟨.Idle, ""⟩

/-- States reachable from the constructor's initial state
`m_connectionState = Idle`, `m_currentCommand` empty. -/
inductive Reachable : Helper → Prop where
  | init : Reachable ⟨.Idle, ""⟩
  | step {h h' : Helper} : Reachable h → Step h h' → Reachable h'

/-! ## `onClientDataReceived` as a function on the receive buffer -/

/-- Decode UTF-16 code units to characters, recombining surrogate pairs the
way `QString` stores them (lone surrogates map to U+FFFD). -/
def utf16Decode : List Nat → List Char
  | [] => []
  | u :: rest =>
    if 0xD800 ≤ u ∧ u < 0xDC00 then
      match rest with
      | v :: rest2 =>
        if 0xDC00 ≤ v ∧ v < 0xE000 then
          Char.ofNat (0x10000 + (u - 0xD800) * 0x400 + (v - 0xDC00)) :: utf16Decode rest2
        else Char.ofNat 0xFFFD :: utf16Decode (v :: rest2)
      | [] => [Char.ofNat 0xFFFD]
    else if 0xDC00 ≤ u ∧ u < 0xE000 then Char.ofNat 0xFFFD :: utf16Decode rest
    else Char.ofNat u :: utf16Decode rest
termination_by l => l.length
decreasing_by all_goals simp only [List.length_cons]; omega

/-- Group a byte list into big-endian 16-bit units (an odd trailing byte is
dropped, as `QDataStream` reads `len / 2` units). -/
def unitsOfBytes : List Byte → List Nat
  | b1 :: b2 :: rest => (b1 * 256 + b2) :: unitsOfBytes rest
  | _ => []

/-- `QDataStream >> QString` on a receive buffer: needs a 4-byte big-endian
length and that many payload bytes, else the read fails (`ReadPastEnd`).
Returns the decoded string and the unread remainder. -/
def deserializeQString (bytes : List Byte) : Option (String × List Byte) :=
  match bytes with
  | b0 :: b1 :: b2 :: b3 :: rest =>
    let len := ((b0 * 256 + b1) * 256 + b2) * 256 + b3
    if len = 0xFFFFFFFF then some ("", rest)  -- null QString
    else if rest.length < len then none
    else some (⟨utf16Decode (unitsOfBytes (rest.take len))⟩, rest.drop len)
  | _ => none

/-- What one `onClientDataReceived` invocation does: the helper fields after
the call, the bytes left unread in the socket buffer, the command string
dispatched to `processCommand` (if any), and the status frame sent (if
any). -/
structure RecvEffect where
  helper : Helper
  leftover : List Byte
  dispatched : Option String
  reply : Option String
deriving Repr, DecidableEq

/-- `DiskWriterHelper::onClientDataReceived` (lines 270-391), with
`proc c` the outcome of `processCommand c` (`none` = an exception escaped).
In `HandshakeReceiving`, a decoded `"READY"` moves to `Ready` and anything
else (including an undecodable buffer) moves to `Error`.  In `Ready`, an
undecodable buffer is left in place to wait for more data; a decoded command
is stored, processed in `Processing`, answered with `SUCCESS`/`FAILURE`, and
the machine returns to `Ready` (or `Error` on an exception).  In every other
state the handler calls `readAll()` and discards the bytes. -/
def onClientDataReceived (proc : String → Option Bool) (h : Helper)
    (buf : List Byte) : RecvEffect :=
  match h.state with
  | .HandshakeReceiving =>
    match deserializeQString buf with
    | some (s, rest) =>
      if s = "READY" then ⟨changeState h .Ready, rest, none, none⟩
      else ⟨changeState h .Error, rest, none, none⟩
    | none => ⟨changeState h .Error, [], none, none⟩
  | .Ready =>
    match deserializeQString buf with
    | none => ⟨h, buf, none, none⟩
    | some (c, rest) =>
      let h1 : Helper := ⟨.Processing, c⟩
      match proc c with
      | some ok =>
        ⟨changeState h1 .Ready, rest, some c, some (if ok then "SUCCESS" else "FAILURE")⟩
      | none => ⟨changeState h1 .Error, rest, some c, some "FAILURE"⟩
  | _ => ⟨h, [], none, none⟩

/-! ## Progress reporter (`DiskWriterHelper::sendProgressUpdate`,
lines 630-673) -/

/-- The function-local `static` duplicate-suppression state:
`lastSentType` and `lastSentNow`, both initialised to `-1`. -/
structure ProgDedup where
  lastSentType : Int
  lastSentNow : Int
deriving Repr, DecidableEq

/-- One call to `sendProgressUpdate`: if the client connection is open and
`(progressType, now)` differs from the last sent pair, update the statics
and transmit the frame; otherwise transmit nothing. -/
def sendProgressUpdate (st : ProgDedup) (connOpen : Bool)
    (progressType now total : Int) : ProgDedup × Option (Int × Int × Int) :=
  if connOpen then
    if st.lastSentNow = now ∧ st.lastSentType = progressType then (st, none)
    else (⟨progressType, now⟩, some (progressType, now, total))
  else (st, none)

/-- Run a sequence of `sendProgressUpdate` calls (each a tuple
`(connOpen, type, now, total)`) from dedup state `st`, collecting the frames
that reach the socket in order. -/
def runProgress (st : ProgDedup) : List (Bool × Int × Int × Int) → List (Int × Int × Int)
  | [] => []
  | (o, t, n, tot) :: rest =>
    match sendProgressUpdate st o t n tot with
    | (st2, none) => runProgress st2 rest
    | (st2, some f) => f :: runProgress st2 rest

/-! ## Helper lemmas -/

lemma roundUpTo_dvd (sector n : Nat) : sector ∣ roundUpTo sector n :=
  ⟨(n + sector - 1) / sector, by rw [roundUpTo, Nat.mul_comm]⟩

lemma roundUpTo_ge (sector n : Nat) (hs : 0 < sector) : n ≤ roundUpTo sector n := by
  unfold roundUpTo
  rw [Nat.mul_comm]
  have hm := Nat.div_add_mod (n + sector - 1) sector
  have hmod : (n + sector - 1) % sector < sector := Nat.mod_lt _ hs
  set q := (n + sector - 1) / sector
  set r := (n + sector - 1) % sector
  set X := sector * q with hX
  omega

lemma devRead_length (dev : Nat → Byte) (devLen off n : Nat) :
    (devRead dev devLen off n).length = min n (devLen - off) := by
  simp [devRead]

lemma devRead_of_le (dev : Nat → Byte) {devLen off n : Nat} (h : off + n ≤ devLen) :
    devRead dev devLen off n = (List.range n).map (fun i => dev (off + i)) := by
  unfold devRead
  have : min n (devLen - off) = n := by omega
  rw [this]

lemma devRead_append (dev : Nat → Byte) {devLen off n m : Nat}
    (h : off + n + m ≤ devLen) :
    devRead dev devLen off n ++ devRead dev devLen (off + n) m =
      devRead dev devLen off (n + m) := by
  rw [devRead_of_le dev (by omega), devRead_of_le dev (by omega),
    devRead_of_le dev (by omega), List.range_add, List.map_append, List.map_map]
  congr 1
  apply List.map_congr_left
  intro i _
  simp [Nat.add_assoc]

lemma verifyLoop_full (dev : Nat → Byte) (devLen total : Nat) :
    ∀ fuel pos verified, total - verified ≤ fuel →
      pos + (total - verified) ≤ devLen →
      verifyLoop dev devLen total fuel pos verified =
        devRead dev devLen pos (total - verified) := by
  intro fuel
  induction fuel with
  | zero =>
    intro pos verified h1 _h2
    have h0 : total - verified = 0 := by omega
    simp [verifyLoop, h0, devRead]
  | succ k ih =>
    intro pos verified h1 h2
    by_cases hv : verified < total
    · have hB : 0 < VERIFY_BLOCK_SIZE := by norm_num [VERIFY_BLOCK_SIZE]
      have hc : min (min VERIFY_BLOCK_SIZE (total - verified)) (devLen - pos) =
          min VERIFY_BLOCK_SIZE (total - verified) := by omega
      have hc0 : ¬ (min (min VERIFY_BLOCK_SIZE (total - verified)) (devLen - pos) = 0) := by
        omega
      rw [verifyLoop, if_pos hv, if_neg hc0, hc]
      set c := min VERIFY_BLOCK_SIZE (total - verified) with hcdef
      have hc1 : 1 ≤ c := by omega
      have hcle : c ≤ total - verified := by omega
      rw [ih (pos + c) (verified + c) (by omega) (by omega)]
      have : total - (verified + c) = (total - verified) - c := by omega
      rw [this]
      rw [devRead_append dev (by omega)]
      congr 1
      omega
    · have h0 : total - verified = 0 := by omega
      simp [verifyLoop, hv, h0, devRead]

/-- Dropping a chunk after taking it restores the suffix. -/
lemma chunk_append_drop (src : List Byte) (pos n : Nat) :
    (src.drop pos).take n ++ src.drop (pos + n) = src.drop pos := by
  conv_rhs => rw [← List.take_append_drop n (src.drop pos)]
  rw [List.drop_drop, Nat.add_comm pos n]

lemma buffer_size_pos : 0 < BUFFER_SIZE := by norm_num [BUFFER_SIZE]

/-- When the loop ends with `success`, the whole flag was set on entry, the
hash stream grew by exactly the remaining source suffix, and
`totalBytesWritten` advanced by exactly the number of (unpadded) source
bytes read. -/
lemma bodyLoop_success_spec (wOk : Nat → Bool) (phys mbrSaved : Bool)
    (sector : Nat) (src : List Byte) :
    ∀ fuel pos st, src.length - pos ≤ fuel →
      (bodyLoop wOk phys mbrSaved sector src fuel pos st).success = true →
      st.success = true ∧
      (bodyLoop wOk phys mbrSaved sector src fuel pos st).hashInput =
        st.hashInput ++ src.drop pos ∧
      (bodyLoop wOk phys mbrSaved sector src fuel pos st).tbw =
        st.tbw + (src.length - pos) := by
  intro fuel
  induction fuel with
  | zero =>
    intro pos st h1 h2
    simp only [bodyLoop] at h2 ⊢
    have hp : src.length ≤ pos := by omega
    have hd : src.drop pos = [] := List.drop_eq_nil_of_le hp
    refine ⟨h2, by simp [hd], by omega⟩
  | succ k ih =>
    intro pos st h1 h2
    by_cases hp : pos < src.length ∧ st.success = true
    · rw [bodyLoop, if_pos hp] at h2 ⊢
      set bytesRead := min BUFFER_SIZE (src.length - pos) with hbr
      have hbr1 : 1 ≤ bytesRead := by
        have := buffer_size_pos
        omega
      have hbrle : bytesRead ≤ src.length - pos := by omega
      have hfuel : src.length - (pos + bytesRead) ≤ k := by omega
      by_cases hw1 : wOk st.attempt
      · rw [if_pos hw1] at h2 ⊢
        obtain ⟨_, hh, ht⟩ := ih (pos + bytesRead) _ hfuel h2
        refine ⟨hp.2, ?_, ?_⟩
        · rw [hh]
          simp only [List.append_assoc]
          rw [chunk_append_drop]
        · rw [ht]
          simp only []
          omega
      · rw [if_neg hw1] at h2 ⊢
        by_cases hw2 : wOk (st.attempt + 1)
        · rw [if_pos hw2] at h2 ⊢
          obtain ⟨_, hh, ht⟩ := ih (pos + bytesRead) _ hfuel h2
          refine ⟨hp.2, ?_, ?_⟩
          · rw [hh]
            simp only [List.append_assoc]
            rw [chunk_append_drop]
          · rw [ht]
            simp only []
            omega
        · rw [if_neg hw2] at h2
          simp at h2
    · rw [bodyLoop, if_neg hp] at h2 ⊢
      have hple : src.length ≤ pos := by
        rcases Decidable.not_and_iff_or_not.mp hp with h | h
        · omega
        · exact absurd h2 h
      have hd : src.drop pos = [] := List.drop_eq_nil_of_le hple
      refine ⟨h2, by simp [hd], by omega⟩

/-- With a physical-drive target and the MBR stashed, every `WriteFile` the
loop issues targets an offset of at least `MBR_SIZE`. -/
lemma bodyLoop_trace_offsets (wOk : Nat → Bool) (sector : Nat) (src : List Byte) :
    ∀ fuel pos st, (∀ ev ∈ st.trace, MBR_SIZE ≤ ev.offset) →
      ∀ ev ∈ (bodyLoop wOk true true sector src fuel pos st).trace,
        MBR_SIZE ≤ ev.offset := by
  intro fuel
  induction fuel with
  | zero =>
    intro pos st hst
    simp only [bodyLoop]
    exact hst
  | succ k ih =>
    intro pos st hst
    rw [bodyLoop]
    by_cases hp : pos < src.length ∧ st.success = true
    · rw [if_pos hp]
      simp only [if_true]
      have hnew : ∀ d : List Byte,
          MBR_SIZE ≤ (WriteEvent.mk (st.tbw + MBR_SIZE) d).offset := by
        intro d
        simp
      by_cases hw1 : wOk st.attempt
      · rw [if_pos hw1]
        apply ih
        intro ev hev
        rcases List.mem_append.mp hev with h | h
        · exact hst ev h
        · rcases List.mem_singleton.mp h with rfl
          simp
      · rw [if_neg hw1]
        by_cases hw2 : wOk (st.attempt + 1)
        · rw [if_pos hw2]
          apply ih
          intro ev hev
          rcases List.mem_append.mp hev with h | h
          · exact hst ev h
          · rcases List.mem_cons.mp h with rfl | h
            · simp
            · rcases List.mem_singleton.mp h with rfl
              simp
        · rw [if_neg hw2]
          intro ev hev
          rcases List.mem_append.mp hev with h | h
          · exact hst ev h
          · rcases List.mem_cons.mp h with rfl | h
            · simp
            · rcases List.mem_singleton.mp h with rfl
              simp
    · rw [if_neg hp]
      exact hst

/-- The data built for one loop chunk satisfies the padding discipline. -/
lemma paddedEvent_of_chunk (sector : Nat) (hs : 0 < sector) (off : Nat)
    (c : List Byte) :
    PaddedEvent sector
      ⟨off, c ++ List.replicate
        ((if c.length % sector = 0 then c.length else roundUpTo sector c.length)
          - c.length) 0⟩ := by
  set btw := if c.length % sector = 0 then c.length else roundUpTo sector c.length with hbtw
  have hble : c.length ≤ btw := by
    rw [hbtw]
    split
    · exact le_refl _
    · exact roundUpTo_ge sector c.length hs
  have hlen : (c ++ List.replicate (btw - c.length) 0).length = btw := by
    simp
    omega
  constructor
  · rw [hlen, hbtw]
    split
    · exact Nat.dvd_of_mod_eq_zero (by assumption)
    · exact roundUpTo_dvd sector c.length
  · exact ⟨c, by rw [hlen], by rw [hlen]⟩

/-- Every `WriteFile` the loop issues satisfies the padding discipline. -/
lemma bodyLoop_trace_padded (wOk : Nat → Bool) (phys mbrSaved : Bool)
    (sector : Nat) (hs : 0 < sector) (src : List Byte) :
    ∀ fuel pos st, (∀ ev ∈ st.trace, PaddedEvent sector ev) →
      ∀ ev ∈ (bodyLoop wOk phys mbrSaved sector src fuel pos st).trace,
        PaddedEvent sector ev := by
  intro fuel
  induction fuel with
  | zero =>
    intro pos st hst
    simp only [bodyLoop]
    exact hst
  | succ k ih =>
    intro pos st hst
    rw [bodyLoop]
    by_cases hp : pos < src.length ∧ st.success = true
    · rw [if_pos hp]
      set bytesRead := min BUFFER_SIZE (src.length - pos) with hbr
      have hclen : ((src.drop pos).take bytesRead).length = bytesRead := by
        simp
        omega
      have hnew : PaddedEvent sector
          ⟨(if phys then (if mbrSaved then st.tbw + MBR_SIZE else st.tbw) else st.devPos),
            (src.drop pos).take bytesRead ++ List.replicate
              ((if bytesRead % sector = 0 then bytesRead
                else roundUpTo sector bytesRead) - bytesRead) 0⟩ := by
        have := paddedEvent_of_chunk sector hs
          (if phys then (if mbrSaved then st.tbw + MBR_SIZE else st.tbw) else st.devPos)
          ((src.drop pos).take bytesRead)
        rw [hclen] at this
        exact this
      by_cases hw1 : wOk st.attempt
      · rw [if_pos hw1]
        apply ih
        intro ev hev
        rcases List.mem_append.mp hev with h | h
        · exact hst ev h
        · rcases List.mem_singleton.mp h with rfl
          exact hnew
      · rw [if_neg hw1]
        by_cases hw2 : wOk (st.attempt + 1)
        · rw [if_pos hw2]
          apply ih
          intro ev hev
          rcases List.mem_append.mp hev with h | h
          · exact hst ev h
          · rcases List.mem_cons.mp h with rfl | h
            · exact hnew
            · rcases List.mem_singleton.mp h with rfl
              exact hnew
        · rw [if_neg hw2]
          intro ev hev
          rcases List.mem_append.mp hev with h | h
          · exact hst ev h
          · rcases List.mem_cons.mp h with rfl | h
            · exact hnew
            · rcases List.mem_singleton.mp h with rfl
              exact hnew
    · rw [if_neg hp]
      exact hst

/-- Every `WriteFile` of the MBR phase targets offset 0. -/
lemma mbrPhase_offsets (wOkMbr : Nat → Bool) (sector : Nat) (src : List Byte) :
    ∀ ev ∈ (mbrPhase wOkMbr sector src).1, ev.offset = 0 := by
  intro ev hev
  unfold mbrPhase at hev
  simp only [] at hev
  split at hev <;> [skip; split at hev] <;>
    simp_all

/-- The MBR phase always issues at least one write attempt. -/
lemma mbrPhase_ne_nil (wOkMbr : Nat → Bool) (sector : Nat) (src : List Byte) :
    (mbrPhase wOkMbr sector src).1 ≠ [] := by
  unfold mbrPhase
  simp only []
  split <;> [skip; split] <;> simp

/-- If all three MBR write attempts fail, the phase reports failure. -/
lemma mbrPhase_all_fail (wOkMbr : Nat → Bool) (sector : Nat) (src : List Byte)
    (h0 : wOkMbr 0 = false) (h1 : wOkMbr 1 = false) (h2 : wOkMbr 2 = false) :
    (mbrPhase wOkMbr sector src).2 = false := by
  simp [mbrPhase, h0, h1, h2]

/-- The MBR write satisfies the padding discipline when the source holds a
full MBR. -/
lemma mbrPhase_padded (wOkMbr : Nat → Bool) (sector : Nat) (hs : 0 < sector)
    (src : List Byte) (hlen : MBR_SIZE ≤ src.length) :
    ∀ ev ∈ (mbrPhase wOkMbr sector src).1, PaddedEvent sector ev := by
  have hclen : (src.take MBR_SIZE).length = MBR_SIZE := by
    simp
    omega
  have hev : PaddedEvent sector
      ⟨0, src.take MBR_SIZE ++ List.replicate
        ((if MBR_SIZE % sector = 0 then MBR_SIZE
          else roundUpTo sector MBR_SIZE) - MBR_SIZE) 0⟩ := by
    have := paddedEvent_of_chunk sector hs 0 (src.take MBR_SIZE)
    rw [hclen] at this
    exact this
  intro ev hmem
  unfold mbrPhase at hmem
  simp only [] at hmem
  split at hmem <;> [skip; split at hmem] <;> simp_all

/-- `changeState` always lands in the requested state. -/
lemma changeState_state (h : Helper) (ns : ConnState) :
    (changeState h ns).state = ns := by
  unfold changeState
  split
  · next heq => exact heq
  · rfl

/-- Entering `Idle`, `Connected` or `Ready` clears the command, unless the
machine is already in that state (in which case `changeState` is a no-op and
the command must have been empty already). -/
lemma changeState_cmd_empty_target (h : Helper) (ns : ConnState)
    (hns : ns = .Idle ∨ ns = .Connected ∨ ns = .Ready)
    (hsame : h.state = ns → h.currentCommand = "") :
    (changeState h ns).currentCommand = "" := by
  unfold changeState
  split
  · next heq => exact hsame heq
  · rcases hns with rfl | rfl | rfl <;> rfl

/-- Entering any other state leaves the command untouched. -/
lemma changeState_cmd_keep (h : Helper) (ns : ConnState)
    (hns : ns = .HandshakeSending ∨ ns = .HandshakeReceiving ∨
      ns = .Processing ∨ ns = .Error) :
    (changeState h ns).currentCommand = h.currentCommand := by
  unfold changeState
  split
  · rfl
  · rcases hns with rfl | rfl | rfl | rfl <;> rfl

/-- The happy handshake path reaches `Ready` with an empty command. -/
lemma reachable_ready : Reachable ⟨.Ready, ""⟩ := by
  have h0 : Reachable ⟨.Idle, ""⟩ := .init
  have h1 : Reachable ⟨.Connected, ""⟩ :=
    h0.step (by simpa [changeState] using Step.connect ⟨.Idle, ""⟩)
  have h2 : Reachable ⟨.HandshakeSending, ""⟩ :=
    h1.step (by simpa [changeState] using Step.startHandshake ⟨.Connected, ""⟩ rfl)
  have h3 : Reachable ⟨.HandshakeReceiving, ""⟩ :=
    h2.step (by simpa [changeState] using Step.helloSent ⟨.HandshakeSending, ""⟩ rfl)
  exact h3.step (by simpa [changeState] using Step.recvReady ⟨.HandshakeReceiving, ""⟩ rfl)

/-- Accepted commands put the machine in `Processing` with the command
stored. -/
lemma reachable_processing (c : String) : Reachable ⟨.Processing, c⟩ :=
  reachable_ready.step (Step.beginCommand ⟨.Ready, ""⟩ c rfl)

/-- The dedup invariant of the progress reporter: the transmitted frames
never repeat an adjacent `(kind, now)` pair, and the first transmitted frame
differs from the pair recorded in the dedup state. -/
lemma runProgress_spec (calls : List (Bool × Int × Int × Int)) :
    ∀ st : ProgDedup,
      List.Chain' (fun a b : Int × Int × Int => ¬(b.1 = a.1 ∧ b.2.1 = a.2.1))
        (runProgress st calls) ∧
      ∀ f ∈ (runProgress st calls).head?,
        ¬(f.1 = st.lastSentType ∧ f.2.1 = st.lastSentNow) := by
  induction calls with
  | nil =>
    intro st
    simp [runProgress]
  | cons c rest ih =>
    intro st
    obtain ⟨o, t, n, tot⟩ := c
    by_cases ho : o
    · by_cases hd : st.lastSentNow = n ∧ st.lastSentType = t
      · have : runProgress st ((o, t, n, tot) :: rest) = runProgress st rest := by
          simp [runProgress, sendProgressUpdate, ho, hd]
        rw [this]
        exact ih st
      · have : runProgress st ((o, t, n, tot) :: rest) =
            (t, n, tot) :: runProgress ⟨t, n⟩ rest := by
          simp [runProgress, sendProgressUpdate, ho, hd]
        rw [this]
        constructor
        · rw [List.chain'_cons']
          refine ⟨?_, (ih ⟨t, n⟩).1⟩
          intro f hf
          have := (ih ⟨t, n⟩).2 f hf
          simpa using this
        · intro f hf
          simp only [List.head?_cons, Option.mem_def, Option.some.injEq] at hf
          subst hf
          intro hcon
          exact hd ⟨hcon.2.symm, hcon.1.symm⟩
    · have : runProgress st ((o, t, n, tot) :: rest) = runProgress st rest := by
        simp [runProgress, sendProgressUpdate, ho]
      rw [this]
      exact ih st

/-! ## Claim theorems -/

set_option maxRecDepth 1000000

/-- Claim C1: the claim asserts that after a successful WRITE whose device
copy is intact, the writer digest equals the verifier digest and VERIFY
succeeds.  The code refutes it: for a 1024-byte image of fives written
successfully (digest stream = the source bytes) onto a device whose every
byte reads back 5 (so the first 1024 device bytes equal the written image),
`verifyImage` hashes a different stream — `bytes_total` bytes starting at
offset `VERIFY_BLOCK_SIZE` plus the first 10 MiB block — and returns
failure. -/
theorem write_then_verify_fails_on_intact_device :
    (writeImageToDevice (fun _ => true) (fun _ => true) true 512
      (List.replicate 1024 5)).success = true ∧
    (writeImageToDevice (fun _ => true) (fun _ => true) true 512
      (List.replicate 1024 5)).hashInput = List.replicate 1024 5 ∧
    devRead (fun _ => 5) (VERIFY_BLOCK_SIZE + 1024) 0 1024 = List.replicate 1024 5 ∧
    verifyImage (fun _ => 5) (VERIFY_BLOCK_SIZE + 1024) 1024
      (List.replicate 1024 5) [] = false := by
  decide

/-- Claim C2 counterexample: the byte stream `verifyImage` hashes is not the
spec's "offset 512 to `bytes_total`, then offset 0..512" schedule — already
for a constant device of threes with `bytes_total = 1024` the two streams
differ (2048 bytes versus 1024). -/
theorem verify_stream_differs_from_spec_schedule :
    verifyHashStream (fun _ => 3) (VERIFY_BLOCK_SIZE + 1024) 1024 ≠
      specVerifySchedule (fun _ => 3) (VERIFY_BLOCK_SIZE + 1024) 1024 := by
  decide

/-- Claim C2 (amended): on a device large enough for the whole schedule,
`verifyImage` hashes `bytes_total` device bytes starting at offset
`VERIFY_BLOCK_SIZE` (10 MiB, not 512), then appends the first
`min VERIFY_BLOCK_SIZE bytes_total` device bytes. -/
theorem verify_stream_characterization (dev : Nat → Byte) (devLen total : Nat)
    (h1 : 0 < total) (h2 : VERIFY_BLOCK_SIZE + total ≤ devLen) :
    verifyHashStream dev devLen total =
      devRead dev devLen VERIFY_BLOCK_SIZE total ++
        devRead dev devLen 0 (min VERIFY_BLOCK_SIZE total) := by
  unfold verifyHashStream
  congr 1
  have h := verifyLoop_full dev devLen total total VERIFY_BLOCK_SIZE 0
    (by omega) (by omega)
  simpa using h

/-- Witness for the amended claim C2 at a concrete device. -/
theorem verify_stream_characterization_witness :
    0 < 4 ∧ VERIFY_BLOCK_SIZE + 4 ≤ VERIFY_BLOCK_SIZE + 4 ∧
    verifyHashStream (fun _ => 0) (VERIFY_BLOCK_SIZE + 4) 4 =
      devRead (fun _ => 0) (VERIFY_BLOCK_SIZE + 4) VERIFY_BLOCK_SIZE 4 ++
        devRead (fun _ => 0) (VERIFY_BLOCK_SIZE + 4) 0 (min VERIFY_BLOCK_SIZE 4) :=
  ⟨by decide, by decide,
    verify_stream_characterization (fun _ => 0) (VERIFY_BLOCK_SIZE + 4) 4
      (by decide) (by decide)⟩

/-- Claim C3: for a physical-drive target with a full MBR stash, the device
write trace splits into body writes, all at offsets of at least 512,
followed only by MBR writes at offset 0; a successful WRITE contains the
offset-0 write, and three failed MBR attempts fail the whole WRITE. -/
theorem mbr_write_last (wOkBody wOkMbr : Nat → Bool) (sector : Nat)
    (src : List Byte) (hlen : MBR_SIZE ≤ src.length) :
    ∃ t1 t2,
      (writeImageToDevice wOkBody wOkMbr true sector src).trace = t1 ++ t2 ∧
      (∀ ev ∈ t1, MBR_SIZE ≤ ev.offset) ∧
      (∀ ev ∈ t2, ev.offset = 0) ∧
      ((writeImageToDevice wOkBody wOkMbr true sector src).success = true →
        t2 ≠ []) ∧
      ((wOkMbr 0 = false ∧ wOkMbr 1 = false ∧ wOkMbr 2 = false) →
        (writeImageToDevice wOkBody wOkMbr true sector src).success = false) := by
  have hmin : min MBR_SIZE src.length = MBR_SIZE := by omega
  simp only [writeImageToDevice]
  rw [if_pos hmin]
  set st := bodyLoop wOkBody true true sector src src.length MBR_SIZE
    ⟨[], src.take MBR_SIZE, 0, 0, 0, true⟩ with hst
  have hbody : ∀ ev ∈ st.trace, MBR_SIZE ≤ ev.offset := by
    rw [hst]
    exact bodyLoop_trace_offsets wOkBody sector src src.length MBR_SIZE _ (by simp)
  by_cases hb : st.success = true
  · rw [if_pos hb]
    refine ⟨st.trace, (mbrPhase wOkMbr sector src).1, rfl, hbody,
      mbrPhase_offsets wOkMbr sector src, ?_, ?_⟩
    · intro _
      exact mbrPhase_ne_nil wOkMbr sector src
    · rintro ⟨h0, h1, h2⟩
      exact mbrPhase_all_fail wOkMbr sector src h0 h1 h2
  · rw [if_neg hb]
    refine ⟨st.trace, [], by simp, hbody, by simp, ?_, fun _ => rfl⟩
    intro hcon
    simp at hcon

/-- Witness for claim C3 at a 600-byte source with all MBR attempts
failing. -/
theorem mbr_write_last_witness :
    MBR_SIZE ≤ (List.replicate 600 1).length ∧
    ∃ t1 t2,
      (writeImageToDevice (fun _ => true) (fun _ => false) true 512
        (List.replicate 600 1)).trace = t1 ++ t2 ∧
      (∀ ev ∈ t1, MBR_SIZE ≤ ev.offset) ∧
      (∀ ev ∈ t2, ev.offset = 0) ∧
      ((writeImageToDevice (fun _ => true) (fun _ => false) true 512
        (List.replicate 600 1)).success = true → t2 ≠ []) ∧
      (((fun _ => false) 0 = false ∧ (fun _ => false) 1 = false ∧
          (fun _ => false) 2 = false) →
        (writeImageToDevice (fun _ => true) (fun _ => false) true 512
          (List.replicate 600 1)).success = false) :=
  ⟨by decide,
    mbr_write_last (fun _ => true) (fun _ => false) 512 (List.replicate 600 1)
      (by decide)⟩

/-- Claim C4 (code bug evidence): for a 300-byte source, the initial MBR
read is short, MBR-last mode is disabled — but the source position is never
rewound, so the write loop sees end-of-file immediately: the WRITE
"succeeds" with an empty device trace, zero `bytes_written` and an empty
hash stream, writing none of the 300 source bytes. -/
theorem short_source_write_writes_nothing :
    (writeImageToDevice (fun _ => true) (fun _ => true) true 4096
      (List.replicate 300 7)).success = true ∧
    (writeImageToDevice (fun _ => true) (fun _ => true) true 4096
      (List.replicate 300 7)).mbrSaved = false ∧
    (writeImageToDevice (fun _ => true) (fun _ => true) true 4096
      (List.replicate 300 7)).trace = [] ∧
    (writeImageToDevice (fun _ => true) (fun _ => true) true 4096
      (List.replicate 300 7)).bytesWritten = 0 ∧
    (writeImageToDevice (fun _ => true) (fun _ => true) true 4096
      (List.replicate 300 7)).hashInput = [] := by
  decide

/-- Claim C5 counterexample: a 100-byte source (not a sector multiple)
yields a successful WRITE whose `bytes_written` is 0, not the unpadded
source length — the short-read fallback skips the whole source. -/
theorem write_success_but_byteswritten_short :
    (writeImageToDevice (fun _ => true) (fun _ => true) false 512
      (List.replicate 100 9)).success = true ∧
    (List.replicate 100 (9 : Nat)).length % 512 ≠ 0 ∧
    (writeImageToDevice (fun _ => true) (fun _ => true) false 512
      (List.replicate 100 9)).bytesWritten ≠
      (List.replicate 100 (9 : Nat)).length := by
  decide

/-- Claim C5 (amended, restricted to sources holding a full 512-byte MBR):
every write submitted to the OS is sector-aligned with a zero-filled tail
(pre-pad data kept intact), the hash stream is exactly the source bytes, and
after a successful WRITE `bytes_written` equals the unpadded source
length. -/
theorem write_padding_and_byteswritten (wOkBody wOkMbr : Nat → Bool)
    (phys : Bool) (sector : Nat) (src : List Byte) (hs : 0 < sector)
    (hlen : MBR_SIZE ≤ src.length)
    (hsucc : (writeImageToDevice wOkBody wOkMbr phys sector src).success = true) :
    (writeImageToDevice wOkBody wOkMbr phys sector src).bytesWritten = src.length ∧
    (writeImageToDevice wOkBody wOkMbr phys sector src).hashInput = src ∧
    ∀ ev ∈ (writeImageToDevice wOkBody wOkMbr phys sector src).trace,
      PaddedEvent sector ev := by
  have hmin : min MBR_SIZE src.length = MBR_SIZE := by omega
  simp only [writeImageToDevice] at hsucc ⊢
  rw [if_pos hmin] at hsucc ⊢
  set st := bodyLoop wOkBody phys true sector src src.length MBR_SIZE
    ⟨[], src.take MBR_SIZE, 0, 0, 0, true⟩ with hst
  by_cases hb : st.success = true
  · rw [if_pos hb] at hsucc ⊢
    obtain ⟨-, hh, -⟩ := bodyLoop_success_spec wOkBody phys true sector src
      src.length MBR_SIZE ⟨[], src.take MBR_SIZE, 0, 0, 0, true⟩ (by omega)
      (hst ▸ hb)
    refine ⟨rfl, ?_, ?_⟩
    · show st.hashInput = src
      rw [hst, hh]
      exact List.take_append_drop _ _
    · intro ev hev
      rcases List.mem_append.mp hev with h | h
      · rw [hst] at h
        exact bodyLoop_trace_padded wOkBody phys true sector hs src src.length
          MBR_SIZE _ (by simp) ev h
      · exact mbrPhase_padded wOkMbr sector hs src hlen ev h
  · rw [if_neg hb] at hsucc
    simp at hsucc

/-- Witness for the amended claim C5 at a 700-byte source. -/
theorem write_padding_and_byteswritten_witness :
    0 < 512 ∧ MBR_SIZE ≤ (List.replicate 700 2).length ∧
    (writeImageToDevice (fun _ => true) (fun _ => true) false 512
      (List.replicate 700 2)).success = true ∧
    ((writeImageToDevice (fun _ => true) (fun _ => true) false 512
      (List.replicate 700 2)).bytesWritten = (List.replicate 700 2).length ∧
    (writeImageToDevice (fun _ => true) (fun _ => true) false 512
      (List.replicate 700 2)).hashInput = List.replicate 700 2 ∧
    ∀ ev ∈ (writeImageToDevice (fun _ => true) (fun _ => true) false 512
      (List.replicate 700 2)).trace, PaddedEvent 512 ev) :=
  ⟨by decide, by decide, by decide,
    write_padding_and_byteswritten (fun _ => true) (fun _ => true) false 512
      (List.replicate 700 2) (by decide) (by decide) (by decide)⟩

/-- Claim C6 counterexample: the `Error` state reached from `Processing`
(exception or send-failure path) retains the in-flight command —
`changeState(Error)` never clears `m_currentCommand` — so a reachable
non-`Processing` state carries a non-empty command. -/
theorem error_state_retains_command :
    Reachable ⟨.Error, "WRITE"⟩ ∧
    (Helper.mk .Error "WRITE").state ≠ .Processing ∧
    (Helper.mk .Error "WRITE").currentCommand ≠ "" := by
  refine ⟨?_, by decide, by decide⟩
  exact (reachable_processing "WRITE").step
    (by simpa [changeState] using Step.commandException ⟨.Processing, "WRITE"⟩ rfl)

/-- Claim C6 (amended): in every reachable helper state other than
`Processing` and `Error`, `m_currentCommand` is empty; it is set only on
the transition into `Processing`, and leaving `Processing` for `Ready` or
resetting to `Idle` clears it, while `Processing` to `Error` retains it. -/
theorem command_empty_outside_processing_and_error :
    ∀ h : Helper, Reachable h → h.state ≠ .Processing → h.state ≠ .Error →
      h.currentCommand = "" := by
  intro h hr
  induction hr with
  | init =>
    intro _ _
    rfl
  | @step h1 h2 _ st ih =>
    cases st with
    | connect =>
      intro _ _
      apply changeState_cmd_empty_target _ _ (Or.inr (Or.inl rfl))
      intro hc
      exact ih (by rw [hc]; decide) (by rw [hc]; decide)
    | startHandshake hs =>
      intro _ _
      rw [changeState_cmd_keep _ _ (Or.inl rfl)]
      exact ih (by rw [hs]; decide) (by rw [hs]; decide)
    | helloSent hs =>
      intro _ _
      rw [changeState_cmd_keep _ _ (Or.inr (Or.inl rfl))]
      exact ih (by rw [hs]; decide) (by rw [hs]; decide)
    | helloSendFailed hs =>
      intro _ hE
      exact absurd (changeState_state _ .Error) hE
    | handshakeTimeout hs =>
      intro _ hE
      exact absurd (changeState_state _ .Error) hE
    | recvReady hs =>
      intro _ _
      apply changeState_cmd_empty_target _ _ (Or.inr (Or.inr rfl))
      intro hc
      exact absurd (hs.symm.trans hc) (by decide)
    | recvBadHandshake hs =>
      intro _ hE
      exact absurd (changeState_state _ .Error) hE
    | beginCommand c hs =>
      intro hP _
      exact absurd rfl hP
    | finishCommandOk hs =>
      intro _ _
      apply changeState_cmd_empty_target _ _ (Or.inr (Or.inr rfl))
      intro hc
      exact absurd (hs.symm.trans hc) (by decide)
    | commandException hs =>
      intro _ hE
      exact absurd (changeState_state _ .Error) hE
    | sendStatusFailed hs =>
      intro _ hE
      exact absurd (changeState_state _ .Error) hE
    | reset =>
      intro _ _
      rfl

/-- Witness for the amended claim C6 at the reachable `Ready` state. -/
theorem command_empty_witness :
    Reachable ⟨.Ready, ""⟩ ∧
    (Helper.mk .Ready "").state ≠ .Processing ∧
    (Helper.mk .Ready "").state ≠ .Error ∧
    (Helper.mk .Ready "").currentCommand = "" :=
  ⟨reachable_ready, by decide, by decide,
    command_empty_outside_processing_and_error _ reachable_ready
      (by decide) (by decide)⟩

/-- Claim C7: across any sequence of `sendProgressUpdate` calls (starting
from the static initial state `lastSentType = lastSentNow = -1`), no
transmitted frame repeats the `(kind, now)` pair of the frame transmitted
just before it. -/
theorem progress_no_duplicate_pairs (calls : List (Bool × Int × Int × Int)) :
    List.Chain' (fun a b : Int × Int × Int => ¬(b.1 = a.1 ∧ b.2.1 = a.2.1))
      (runProgress ⟨-1, -1⟩ calls) :=
  (runProgress_spec calls ⟨-1, -1⟩).1

/-- Claim C8: `verifyImage` is independent of the `expectedHash` command
argument — two runs differing only there return the same result — and it
returns failure whenever no stored `m_sourceHash` exists. -/
theorem verify_independent_of_expected_hash (dev : Nat → Byte)
    (devLen bytesTotal : Nat) (sourceHash e1 e2 : List Byte) :
    verifyImage dev devLen bytesTotal sourceHash e1 =
      verifyImage dev devLen bytesTotal sourceHash e2 ∧
    verifyImage dev devLen bytesTotal [] e1 = false :=
  ⟨rfl, rfl⟩

/-- Claim C9 counterexample: the serialized `"HELLO"` frame is not 18 bytes
long. -/
theorem hello_frame_not_18_bytes : helloFrame.length ≠ 18 := by
  decide

/-- Claim C9 (amended): the `"HELLO"` frame is exactly 14 bytes — a 4-byte
big-endian length holding 10, then 10 bytes of UTF-16BE payload. -/
theorem hello_frame_is_14_bytes :
    helloFrame = [0, 0, 0, 10, 0, 72, 0, 69, 0, 76, 0, 76, 0, 79] ∧
    helloFrame.length = 14 ∧
    helloFrame.take 4 = be32 10 ∧
    (helloFrame.drop 4).length = 10 := by
  decide

/-- Claim C10: in the `Processing`, `Idle`, `Connected` and
`HandshakeSending` states, `onClientDataReceived` consumes the whole
buffer, dispatches nothing, replies nothing, and leaves the connection state
(and stored command) unchanged. -/
theorem unexpected_state_data_discarded (proc : String → Option Bool)
    (h : Helper) (buf : List Byte)
    (hst : h.state = .Processing ∨ h.state = .Idle ∨ h.state = .Connected ∨
      h.state = .HandshakeSending) :
    onClientDataReceived proc h buf = ⟨h, [], none, none⟩ := by
  obtain ⟨s, c⟩ := h
  simp only [] at hst
  rcases hst with rfl | rfl | rfl | rfl <;> rfl

/-- Witness for claim C10 in the `Processing` state. -/
theorem unexpected_state_data_discarded_witness :
    ((Helper.mk .Processing "WRITE a b").state = .Processing ∨
      (Helper.mk .Processing "WRITE a b").state = .Idle ∨
      (Helper.mk .Processing "WRITE a b").state = .Connected ∨
      (Helper.mk .Processing "WRITE a b").state = .HandshakeSending) ∧
    onClientDataReceived (fun _ => some true) ⟨.Processing, "WRITE a b"⟩
      [0, 1, 2] = ⟨⟨.Processing, "WRITE a b"⟩, [], none, none⟩ :=
  ⟨Or.inl rfl,
    unexpected_state_data_discarded (fun _ => some true)
      ⟨.Processing, "WRITE a b"⟩ [0, 1, 2] (Or.inl rfl)⟩

end USBburner
